import Mathlib

/-!
Verification of the document-processing core of AI-DocProof.

The definitions below are a shallow embedding of `src/doc_processor.py`,
`src/api_client.py` and the worker loop of `src/gui/main_window.py`.
Text is modelled as `List Char`; the Python regular expression
`(。？！|\.[\s\n]|\?|!)["\x27\x27\x27"]?(?=$|[\s\n])` used as
`DocProcessor.sentence_end_pattern` is embedded as an explicit
leftmost-match scanner with the same alternative order and the same
greedy optional quote, and the `while` loops of
`DocProcessor.split_into_sentences` are embedded with an explicit fuel
argument that the callers instantiate with `length + 1`, which is shown
sufficient because every boundary match consumes at least one character.
-/

namespace DocProof

/-- Whitespace test standing for the regular-expression class `\s` (and for
`str.strip`).  Python matches all Unicode whitespace; the embedding covers
ASCII whitespace plus the no-break and ideographic spaces, which is exact on
every text considered here. -/
def isPySpace (c : Char) : Bool :=
  c == ' ' || c == '\t' || c == '\n' || c == '\r' ||
  c == Char.ofNat 11 || c == Char.ofNat 12 ||
  c == Char.ofNat 0xA0 || c == Char.ofNat 0x3000

/-- Characters of the optional closing-quote class `["\x27\x27\x27"]` of
`sentence_end_pattern` (the class contains just the ASCII double and single
quote, the escapes repeating the single quote). -/
def isQuoteChar (c : Char) : Bool :=
  c == '"' || c == Char.ofNat 39

/-- Lookahead `(?=$|[\s\n])` of `sentence_end_pattern`: succeeds at end of
text or in front of a whitespace character. -/
def lookOk : List Char → Bool
  | [] => true
  | c :: _ => isPySpace c

/-- Continuation of `sentence_end_pattern` after a terminator alternative
has consumed `consumed` characters: the greedy optional quote
`["\x27\x27\x27"]?` followed by the lookahead.  Returns the total number of
characters consumed by the match. -/
def afterTerm (consumed : Nat) : List Char → Option Nat
  | [] => some consumed
  | c :: rest =>
    if isQuoteChar c && lookOk rest then some (consumed + 1)
    else if isPySpace c then some consumed
    else none

/-- First alternative of `sentence_end_pattern`: the literal three-character
sequence `。？！` (the source writes the three full-width terminators without
a character class, so only the whole sequence matches). -/
def altFullWidth : List Char → Option Nat
  | '。' :: '？' :: '！' :: rest => afterTerm 3 rest
  | _ => none

/-- Second alternative `\.[\s\n]`: a Western period that consumes one
following whitespace character. -/
def altDotSpace : List Char → Option Nat
  | '.' :: c :: rest => if isPySpace c then afterTerm 2 rest else none
  | _ => none

/-- Third alternative `\?`. -/
def altQuestion : List Char → Option Nat
  | '?' :: rest => afterTerm 1 rest
  | _ => none

/-- Fourth alternative `!` (the ASCII exclamation mark only). -/
def altBang : List Char → Option Nat
  | '!' :: rest => afterTerm 1 rest
  | _ => none

/-- Match of the whole `sentence_end_pattern` anchored at the head of `s`,
trying the alternatives in the order of the pattern; returns the number of
characters consumed. -/
def matchHere (s : List Char) : Option Nat :=
  match altFullWidth s with
  | some r => some r
  | none =>
    match altDotSpace s with
    | some r => some r
    | none =>
      match altQuestion s with
      | some r => some r
      | none => altBang s

/-- The `re.search` of `sentence_end_pattern` over `s`: leftmost match,
returning `match.end()` relative to the start of `s` offset by `ofs`
(callers pass `ofs = 0`). -/
def searchEnd : List Char → Nat → Option Nat
  | [], _ => none
  | s@(_ :: rest), ofs =>
    match matchHere s with
    | some len => some (ofs + len)
    | none => searchEnd rest (ofs + 1)

/-- Python `str.strip()`: remove leading and trailing whitespace. -/
def pyStrip (s : List Char) : List Char :=
  ((s.dropWhile isPySpace).reverse.dropWhile isPySpace).reverse

/-- Does `pat` occur at the head of `s`? -/
def leadsWith : List Char → List Char → Bool
  | _, [] => true
  | [], _ :: _ => false
  | c :: s, p :: ps => c == p && leadsWith s ps

/-- Does `pat` occur contiguously anywhere in `s`?  This is `re.search` for
a literal pattern. -/
def hasSeq : List Char → List Char → Bool
  | [], pat => leadsWith [] pat
  | s@(_ :: rest), pat => leadsWith s pat || hasSeq rest pat

/-- Is there a position of `s` where three consecutive characters satisfy
`p`, `q`, `r`?  `re.search` of a pattern of the shape `X+\.Y+` succeeds
exactly when some character satisfying `X` is immediately followed by `.`
and a character satisfying `Y`, so the exclusion patterns of that shape are
embedded through this test. -/
def hasTrip (p q r : Char → Bool) : List Char → Bool
  | a :: b :: c :: rest => (p a && q b && r c) || hasTrip p q r (b :: c :: rest)
  | _ => false

/-- Is there a position of `s` where two consecutive characters satisfy `p`
and `q`? -/
def hasPair (p q : Char → Bool) : List Char → Bool
  | a :: b :: rest => (p a && q b) || hasPair p q (b :: rest)
  | _ => false

/-- Word-character test standing for `\w`.  Python matches all Unicode word
characters; the embedding covers ASCII letters, digits, underscore and the
CJK unified ideographs, which is exact on every text considered here. -/
def isWordChar (c : Char) : Bool :=
  c.isAlpha || c.isDigit || c == '_' ||
  (decide (0x4E00 ≤ c.toNat) && decide (c.toNat ≤ 0x9FFF))

/-- The period character. -/
def isDotChar (c : Char) : Bool := c == '.'

/-- The literal members of `DocProcessor.exclude_patterns` (each is a fixed
string once the regular-expression escapes are removed, and `re.search` of a
literal is substring search). -/
def litPats : List (List Char) :=
  ["Dr.", "Mr.", "Mrs.", "Ms.", "etc.", "e.g.", "i.e.", "Fig.", "Tab.",
   "Eq.", "Ref.", "Vol.", "No.", "p.", "pp.", "et al.", "Ph.D"].map String.data

/-- Does the candidate sentence match some member of
`DocProcessor.exclude_patterns`?  The class patterns `\d+\.\d+`,
`[A-Za-z]\.`, `\w+\.\w+`, `[A-Z]\.[A-Z]` and `\d+\.` are embedded through
`hasTrip`/`hasPair`. -/
def excludedByPats (s : List Char) : Bool :=
  hasTrip Char.isDigit isDotChar Char.isDigit s ||
  hasPair Char.isAlpha isDotChar s ||
  litPats.any (fun p => hasSeq s p) ||
  hasTrip isWordChar isDotChar isWordChar s ||
  hasTrip Char.isUpper isDotChar Char.isUpper s ||
  hasPair Char.isDigit isDotChar s

/-- Python `s.endswith(".")` for the stripped candidate. -/
def endsWithDot (s : List Char) : Bool := s.getLast? == some '.'

/-- One sentence span as stored in `sentence_positions`: the keys `start`
and `end` (named `stop` here since `end` is a Lean keyword), and the
stripped candidate text. -/
structure Span where
  start : Nat
  stop : Nat
  text : List Char
  deriving DecidableEq, Repr

/-- Python slice `t[a:b]`. -/
def sliceTake (t : List Char) (a b : Nat) : List Char := (t.drop a).take (b - a)

/-- The `while current_pos < len(text)` loop of
`DocProcessor.split_into_sentences` for a top-level paragraph
(doc_processor.py lines 115-160), with an explicit fuel argument; the
entry point passes `t.length + 1`, which is enough fuel because every match
consumes at least one character.  The top-level branch drops a candidate
that is shorter than 5 characters and ends in a Western period, or that
matches an exclusion pattern; the no-match branch takes the stripped
remainder with no exclusion check, exactly as in the source. -/
def splitLoopPara (t : List Char) : Nat → Nat → List Span
  | 0, _ => []
  | fuel + 1, cur =>
    if cur < t.length then
      match searchEnd (t.drop cur) 0 with
      | some e =>
        let endPos := cur + e
        let sent := pyStrip (sliceTake t cur endPos)
        let excl := (decide (sent.length < 5) && endsWithDot sent) || excludedByPats sent
        (if !excl && !sent.isEmpty then [⟨cur, endPos, sent⟩] else []) ++
          splitLoopPara t fuel endPos
      | none =>
        let sent := pyStrip (t.drop cur)
        if sent.isEmpty then [] else [⟨cur, t.length, sent⟩]
    else []

/-- Sentence segmentation of one top-level paragraph text. -/
def splitParagraphText (t : List Char) : List Span := splitLoopPara t (t.length + 1) 0

/-- The corresponding loop for a paragraph inside a table cell
(doc_processor.py lines 173-214).  It is the same loop except that the
minimum-length/ends-with-period drop of the top-level branch is absent:
only the exclusion patterns are checked. -/
def splitLoopCell (t : List Char) : Nat → Nat → List Span
  | 0, _ => []
  | fuel + 1, cur =>
    if cur < t.length then
      match searchEnd (t.drop cur) 0 with
      | some e =>
        let endPos := cur + e
        let sent := pyStrip (sliceTake t cur endPos)
        let excl := excludedByPats sent
        (if !excl && !sent.isEmpty then [⟨cur, endPos, sent⟩] else []) ++
          splitLoopCell t fuel endPos
      | none =>
        let sent := pyStrip (t.drop cur)
        if sent.isEmpty then [] else [⟨cur, t.length, sent⟩]
    else []

/-- Sentence segmentation of one table-cell paragraph text. -/
def splitCellText (t : List Char) : List Span := splitLoopCell t (t.length + 1) 0

/-- Outcome of one candidate of the split loop: emitted as a sentence,
dropped because the candidate text matched the exclusion policy, or dropped
because the stripped candidate text was empty. -/
inductive CandStatus where
  | kept
  | droppedExcluded
  | droppedEmpty
  deriving DecidableEq, Repr

/-- One candidate examined by the split loop: its half-open range in the
paragraph text, its stripped text, whether it came from a boundary match
(`fromBoundary = true`) or is the no-boundary remainder, and its outcome.
This is a bookkeeping view of the same loop; the bridge lemmas below prove
that its kept entries are exactly the spans the source loop returns. -/
structure Cand where
  start : Nat
  stop : Nat
  text : List Char
  fromBoundary : Bool
  status : CandStatus
  deriving DecidableEq, Repr

/-- Candidate view of `splitLoopPara`: identical control flow, but every
candidate is recorded together with its outcome. -/
def candLoopPara (t : List Char) : Nat → Nat → List Cand
  | 0, _ => []
  | fuel + 1, cur =>
    if cur < t.length then
      match searchEnd (t.drop cur) 0 with
      | some e =>
        let endPos := cur + e
        let sent := pyStrip (sliceTake t cur endPos)
        let excl := (decide (sent.length < 5) && endsWithDot sent) || excludedByPats sent
        let st := if excl then CandStatus.droppedExcluded
                  else if sent.isEmpty then CandStatus.droppedEmpty
                  else CandStatus.kept
        ⟨cur, endPos, sent, true, st⟩ :: candLoopPara t fuel endPos
      | none =>
        let sent := pyStrip (t.drop cur)
        [⟨cur, t.length, sent,
          false, if sent.isEmpty then CandStatus.droppedEmpty else CandStatus.kept⟩]
    else []

/-- Candidate view of one top-level paragraph split. -/
def splitParaCands (t : List Char) : List Cand := candLoopPara t (t.length + 1) 0

/-- Candidate view of `splitLoopCell` (no minimum-length drop, as in the
table branch of the source). -/
def candLoopCell (t : List Char) : Nat → Nat → List Cand
  | 0, _ => []
  | fuel + 1, cur =>
    if cur < t.length then
      match searchEnd (t.drop cur) 0 with
      | some e =>
        let endPos := cur + e
        let sent := pyStrip (sliceTake t cur endPos)
        let excl := excludedByPats sent
        let st := if excl then CandStatus.droppedExcluded
                  else if sent.isEmpty then CandStatus.droppedEmpty
                  else CandStatus.kept
        ⟨cur, endPos, sent, true, st⟩ :: candLoopCell t fuel endPos
      | none =>
        let sent := pyStrip (t.drop cur)
        [⟨cur, t.length, sent,
          false, if sent.isEmpty then CandStatus.droppedEmpty else CandStatus.kept⟩]
    else []

/-- Candidate view of one table-cell paragraph split. -/
def splitCellCands (t : List Char) : List Cand := candLoopCell t (t.length + 1) 0

/-- Ranges of the candidates the claimed partition property counts: the
spans returned by segmentation together with the candidates dropped by the
exclusion policy (whitespace-only candidates are not counted). -/
def claimRanges (t : List Char) : List (Nat × Nat) :=
  ((splitParaCands t).filter (fun c => c.status != CandStatus.droppedEmpty)).map
    (fun c => (c.start, c.stop))

/-- Ranges of all candidates of one top-level paragraph split. -/
def allRanges (t : List Char) : List (Nat × Nat) :=
  (splitParaCands t).map (fun c => (c.start, c.stop))

/-- `tilesFrom s rs n` holds when the ranges `rs`, in order, exactly cover
the interval from `s` to `n` with no gaps and no overlaps, each range
nonempty. -/
def tilesFrom : Nat → List (Nat × Nat) → Nat → Bool
  | s, [], n => s == n
  | s, (a, b) :: rest, n => a == s && decide (s < b) && tilesFrom b rest n

/-- One styled run of a paragraph, as produced by `paragraph.add_run` in
`python-docx`: its text, an optional font colour and the bold/italic
flags. -/
structure Run where
  text : List Char
  color : Option (Nat × Nat × Nat)
  bold : Bool
  italic : Bool
  deriving DecidableEq, Repr

/-- An unstyled run. -/
def plainRun (t : List Char) : Run := ⟨t, none, false, false⟩

/-- A paragraph is its ordered list of runs. -/
structure Paragraph where
  runs : List Run
  deriving DecidableEq, Repr

/-- `paragraph.text` of `python-docx`: the concatenation of the run
texts. -/
def Paragraph.text (p : Paragraph) : List Char := (p.runs.map Run.text).flatten

/-- A paragraph holding one plain run. -/
def Paragraph.ofText (t : List Char) : Paragraph := ⟨[plainRun t]⟩

/-- A table cell: its ordered paragraphs. -/
structure Cell where
  paragraphs : List Paragraph
  deriving DecidableEq, Repr

/-- A table row: its ordered cells. -/
structure Row where
  cells : List Cell
  deriving DecidableEq, Repr

/-- A table: its ordered rows. -/
structure Table where
  rows : List Row
  deriving DecidableEq, Repr

/-- The document tree as `DocProcessor` walks it: the top-level paragraphs
(`document.paragraphs`) and the tables (`document.tables`). -/
structure Document where
  paragraphs : List Paragraph
  tables : List Table
  deriving DecidableEq, Repr

/-- One entry of `DocProcessor.sentence_positions`: either the dictionary
with `type: paragraph` or the one with `type: table` (the Python key `end`
is called `stop` here since `end` is a Lean keyword). -/
inductive Position where
  | para (paragraph_index start stop : Nat) (text : List Char)
  | table (table_index row_index cell_index paragraph_index start stop : Nat)
      (text : List Char)
  deriving DecidableEq, Repr

/-- Position entries contributed by one top-level paragraph: skipped when
its stripped text is empty (`if not paragraph.text.strip(): continue`),
else one entry per span of the top-level split. -/
def paraPositions (i : Nat) (t : List Char) : List Position :=
  if (pyStrip t).isEmpty then []
  else (splitParagraphText t).map fun sp => Position.para i sp.start sp.stop sp.text

/-- Position entries contributed by one paragraph of a table cell. -/
def cellParaPositions (ti ri ci pi : Nat) (t : List Char) : List Position :=
  if (pyStrip t).isEmpty then []
  else (splitCellText t).map fun sp =>
    Position.table ti ri ci pi sp.start sp.stop sp.text

/-- `DocProcessor.split_into_sentences`: first the loop over
`document.paragraphs` appending to the position list, then the nested loops
over `document.tables`, their rows, cells and cell paragraphs, appending in
iteration order.  The parallel `sentences` list of the source is the `text`
projection of these entries. -/
def splitIntoSentences (doc : Document) : List Position :=
  let acc := doc.paragraphs.enum.foldl
    (fun acc ip => acc ++ paraPositions ip.1 ip.2.text) []
  doc.tables.enum.foldl (fun acc it =>
    it.2.rows.enum.foldl (fun acc ir =>
      ir.2.cells.enum.foldl (fun acc ic =>
        ic.2.paragraphs.enum.foldl (fun acc ip =>
          acc ++ cellParaPositions it.1 ir.1 ic.1 ip.1 ip.2.text) acc) acc) acc) acc

/-- The styled run `DocProcessor._add_comment_to_paragraph` appends: the
text is `[校对建议: ` followed by the comment and `]`, coloured blue
`(0, 0, 255)`, bold and italic. -/
def commentRun (comment : List Char) : Run :=
  ⟨"[校对建议: ".data ++ comment ++ "]".data, some (0, 0, 255), true, true⟩

/-- `DocProcessor._add_comment_to_paragraph`: reads the full current
paragraph text, removes every run, then adds the original text as one plain
run, one plain space run, and the styled comment run.  The `start` and
`stop` arguments are received and ignored, as in the source. -/
def addCommentToParagraph (p : Paragraph) (_start _stop : Nat)
    (comment : List Char) : Paragraph :=
  let text := p.text
  ⟨[plainRun text, plainRun " ".data, commentRun comment]⟩

/-- Python list subscription `l[i]` with an `int` index: nonnegative
indices from the front, negative indices from the back, out-of-range is an
`IndexError` (modelled as `none`). -/
def pyGet (l : List α) (i : Int) : Option α :=
  if 0 ≤ i then l.get? i.toNat
  else if -(l.length : Int) ≤ i then l.get? ((l.length : Int) + i).toNat
  else none

/-- The mutable fields of a `DocProcessor` instance that
`split_into_sentences`, `add_comment` and `save_document` use. -/
structure ProcState where
  document : Option Document
  sentences : List (List Char)
  sentence_positions : List Position
  deriving DecidableEq, Repr

/-- The sentence text carried by a position entry. -/
def Position.sentText : Position → List Char
  | Position.para _ _ _ t => t
  | Position.table _ _ _ _ _ _ t => t

/-- Processor state right after `load_document` and
`split_into_sentences` succeeded on `doc`. -/
def buildState (doc : Document) : ProcState :=
  let ps := splitIntoSentences doc
  ⟨some doc, ps.map Position.sentText, ps⟩

/-- `DocProcessor.add_comment`: fails when no document is loaded or when
`sentence_index >= len(self.sentence_positions)`; otherwise subscripts
`sentence_positions` with Python semantics (negative indices count from the
back; a residual out-of-range index raises `IndexError`, which the
enclosing `try` turns into `False`), resolves the owning paragraph through
the stored locator, rewrites it with `_add_comment_to_paragraph`, and then
reads `self.sentences[sentence_index]` for the log line before returning
`True`.  A raised `IndexError` after the paragraph was rewritten leaves the
rewrite in place, as the source mutates the document object directly. -/
def add_comment (st : ProcState) (idx : Int) (comment : List Char) :
    Bool × ProcState :=
  match st.document with
  | none => (false, st)
  | some doc =>
    if (st.sentence_positions.length : Int) ≤ idx then (false, st)
    else
      match pyGet st.sentence_positions idx with
      | none => (false, st)
      | some pos =>
        match pos with
        | Position.para pIdx s e _ =>
          match doc.paragraphs.get? pIdx with
          | none => (false, st)
          | some p =>
            let doc2 := { doc with
              paragraphs := doc.paragraphs.set pIdx (addCommentToParagraph p s e comment) }
            let st2 := { st with document := some doc2 }
            match pyGet st.sentences idx with
            | none => (false, st2)
            | some _ => (true, st2)
        | Position.table ti ri ci pi s e _ =>
          match doc.tables.get? ti with
          | none => (false, st)
          | some tb =>
            match tb.rows.get? ri with
            | none => (false, st)
            | some row =>
              match row.cells.get? ci with
              | none => (false, st)
              | some cell =>
                match cell.paragraphs.get? pi with
                | none => (false, st)
                | some p =>
                  let cell2 := { cell with
                    paragraphs := cell.paragraphs.set pi (addCommentToParagraph p s e comment) }
                  let row2 := { row with cells := row.cells.set ci cell2 }
                  let tb2 := { tb with rows := tb.rows.set ri row2 }
                  let doc2 := { doc with tables := doc.tables.set ti tb2 }
                  let st2 := { st with document := some doc2 }
                  match pyGet st.sentences idx with
                  | none => (false, st2)
                  | some _ => (true, st2)

/-- Index of the last `.` in a name, Python `str.rfind`. -/
def lastDotIdx (name : List Char) : Option Nat :=
  ((List.range name.length).filter (fun i => name.get? i == some '.')).getLast?

/-- `os.path.splitext` on a plain file name (no directory separators):
split at the last period, except that a name whose characters before that
period are all periods keeps its extensionless form. -/
def splitExtName (name : List Char) : List Char × List Char :=
  match lastDotIdx name with
  | none => (name, [])
  | some d =>
    if (name.take d).all (fun c => c == '.') then (name, [])
    else (name.take d, name.drop d)

/-- Index of the last `/` in a POSIX path. -/
def lastSlashIdx (p : List Char) : Option Nat :=
  ((List.range p.length).filter (fun i => p.get? i == some '/')).getLast?

/-- `os.path.dirname` for POSIX paths without trailing separators. -/
def dirnameOf (p : List Char) : List Char :=
  match lastSlashIdx p with
  | none => []
  | some i => p.take i

/-- `os.path.basename` for POSIX paths. -/
def baseOf (p : List Char) : List Char :=
  match lastSlashIdx p with
  | none => p
  | some i => p.drop (i + 1)

/-- `os.path.join` for a directory and a relative file name. -/
def joinPath (d f : List Char) : List Char :=
  if d.isEmpty then f
  else if d.getLast? == some '/' then d ++ f
  else d ++ '/' :: f

/-- A wall-clock instant as far as `strftime("%Y%m%d%H%M%S")` consumes
it. -/
structure DateTime where
  year : Nat
  month : Nat
  day : Nat
  hour : Nat
  minute : Nat
  second : Nat
  deriving DecidableEq, Repr

/-- The ASCII digit for `d % 10`. -/
def toDigit (d : Nat) : Char := Char.ofNat (48 + d % 10)

/-- Two-digit zero-padded decimal, faithful to `%m`/`%d`/`%H`/`%M`/`%S`
for values below 100. -/
def pad2 (n : Nat) : List Char := [toDigit (n / 10), toDigit n]

/-- Four-digit zero-padded decimal, faithful to `%Y` for years below
10000. -/
def pad4 (n : Nat) : List Char :=
  [toDigit (n / 1000), toDigit (n / 100), toDigit (n / 10), toDigit n]

/-- `datetime.now().strftime("%Y%m%d%H%M%S")`. -/
def strftimeCompact (dt : DateTime) : List Char :=
  pad4 dt.year ++ pad2 dt.month ++ pad2 dt.day ++
    pad2 dt.hour ++ pad2 dt.minute ++ pad2 dt.second

/-- The output-path derivation of `DocProcessor.save_document` when no
explicit output path is given: `<name>_AI校对<ext>` next to the original
file, and when that path already exists (`fsExists` stands for
`os.path.exists`, `now` for `datetime.datetime.now()`),
`<name>_AI校对_<timestamp><ext>` instead. -/
def save_document_path (fsExists : List Char → Bool) (now : DateTime)
    (file_path : List Char) : List Char :=
  let file_dir := dirnameOf file_path
  let file_name := baseOf file_path
  let ne := splitExtName file_name
  let output := joinPath file_dir (ne.1 ++ "_AI校对".data ++ ne.2)
  if fsExists output then
    joinPath file_dir (ne.1 ++ "_AI校对_".data ++ strftimeCompact now ++ ne.2)
  else output

/-- Modelled from the spec: section 6 states the default output path is
`<original-name>_proofed<ext>`.  This definition follows the claim text and
exists only to be compared against the source-derived
`save_document_path`. -/
def spec_defaultOutputPath (file_path : List Char) : List Char :=
  let ne := splitExtName (baseOf file_path)
  joinPath (dirnameOf file_path) (ne.1 ++ "_proofed".data ++ ne.2)

/-- A JSON value as far as the response check needs one. -/
inductive JVal where
  | str (s : List Char)
  | bool (b : Bool)
  | num (n : Int)
  deriving DecidableEq, Repr

/-- The four keys `ApiClient.proofread_sentence` requires of the parsed
response object. -/
def requiredKeys : List String := ["content_0", "wrong", "annotation", "content_1"]

/-- Python `key in result` for a parsed JSON object. -/
def hasKey (obj : List (String × JVal)) (k : String) : Bool :=
  obj.any (fun kv => kv.1 == k)

/-- The field check `all(key in result for key in [...])` of
`proofread_sentence`. -/
def validateResult (obj : List (String × JVal)) : Bool :=
  requiredKeys.all (hasKey obj)

/-- What the HTTP/parsing front half of `proofread_sentence` produced
before the field check runs: a non-200 status, a response without choices,
choice content that is not valid JSON, or a parsed JSON object. -/
inductive ApiOutcome where
  | httpError (code : Nat)
  | noChoices
  | invalidJson
  | parsed (obj : List (String × JVal))
  deriving DecidableEq, Repr

/-- The `(success, result-or-error)` pair `proofread_sentence` returns,
with the error strings abstracted. -/
inductive ProofreadReply where
  | ok (obj : List (String × JVal))
  | err
  deriving DecidableEq, Repr

/-- `ApiClient.proofread_sentence`: an empty sentence is refused up front;
otherwise only a parsed response object that contains all four required
keys yields `(True, result)`, every other outcome yields `(False, ...)`. -/
def proofread_sentence (sentence : List Char) (outcome : ApiOutcome) :
    ProofreadReply :=
  if (pyStrip sentence).isEmpty then ProofreadReply.err
  else
    match outcome with
    | ApiOutcome.parsed obj =>
      if validateResult obj then ProofreadReply.ok obj else ProofreadReply.err
    | _ => ProofreadReply.err

/-- The classifier result for one sentence as the worker loop consumes it:
either a successful verdict (with the `wrong` flag, the comment text and
the corrected text) or a per-sentence failure message. -/
inductive ClassifyOutcome where
  | success (wrong : Bool) (note corrected : List Char)
  | failure (msg : List Char)
  deriving DecidableEq, Repr

/-- One line the worker appends to the run log: a processed sentence with
its flag, or a recorded per-sentence error. -/
inductive LogEntry where
  | sentenceLog (sentence : List Char) (flagged : Bool)
  | errorLog (sentence msg : List Char)
  deriving DecidableEq, Repr

/-- The terminal `finished.emit(ok, message)` of the worker run. -/
inductive RunOutcome where
  | finished (ok : Bool) (msg : List Char)
  deriving DecidableEq, Repr

/-- One iteration of the `for i, sentence in enumerate(sentences)` loop of
`ProofreadThread.run`: classify, on a positive verdict annotate through
`add_comment` (its return value is ignored, as in the source), and append
the log line; a classifier failure appends an error line and the loop
continues. -/
def stepSentence (api : Nat → ClassifyOutcome) (acc : ProcState × List LogEntry)
    (is : Nat × List Char) : ProcState × List LogEntry :=
  match api is.1 with
  | ClassifyOutcome.success wrong note _ =>
    if wrong then
      (((add_comment acc.1 (Int.ofNat is.1) note).2),
        acc.2 ++ [LogEntry.sentenceLog is.2 true])
    else (acc.1, acc.2 ++ [LogEntry.sentenceLog is.2 false])
  | ClassifyOutcome.failure msg => (acc.1, acc.2 ++ [LogEntry.errorLog is.2 msg])

/-- `ProofreadThread.run` with the external effects abstracted:
`loadResult` is what `load_document` produced, `api` gives the classifier
outcome per sentence index, `saveOk`/`saveMsg` what `save_document`
produced.  A failed load aborts before any classification; an empty
sentence list aborts; otherwise every sentence is processed in order and
the run ends with the save outcome.  The cancellation flag is never set in
a completed run and is not modelled. -/
def threadRun (loadResult : Option Document) (api : Nat → ClassifyOutcome)
    (saveOk : Bool) (saveMsg : List Char) : RunOutcome × List LogEntry :=
  match loadResult with
  | none => (RunOutcome.finished false "加载文档失败".data, [])
  | some doc =>
    let st0 := buildState doc
    if st0.sentences.isEmpty then
      (RunOutcome.finished false "文档中没有找到句子".data, [])
    else
      let r := st0.sentences.enum.foldl (stepSentence api) (st0, [])
      (RunOutcome.finished saveOk saveMsg, r.2)

/-! Bounds on the boundary matcher: every match consumes at least one and
at most all of the remaining characters.  These feed the fuel-sufficiency
argument for the split loops. -/

theorem afterTerm_bound {c : Nat} {rest : List Char} {r : Nat}
    (h : afterTerm c rest = some r) : c ≤ r ∧ r ≤ c + rest.length := by
  cases rest with
  | nil =>
    simp only [afterTerm, Option.some.injEq] at h
    omega
  | cons x xs =>
    simp only [afterTerm] at h
    split at h
    · simp only [Option.some.injEq] at h
      simp only [List.length_cons]
      omega
    · split at h
      · simp only [Option.some.injEq] at h
        simp only [List.length_cons]
        omega
      · exact absurd h (by simp)

theorem altFullWidth_bound {s : List Char} {L : Nat}
    (h : altFullWidth s = some L) : 1 ≤ L ∧ L ≤ s.length := by
  unfold altFullWidth at h
  split at h
  · have hb := afterTerm_bound h
    simp only [List.length_cons]
    omega
  · exact absurd h (by simp)

theorem altDotSpace_bound {s : List Char} {L : Nat}
    (h : altDotSpace s = some L) : 1 ≤ L ∧ L ≤ s.length := by
  unfold altDotSpace at h
  split at h
  · split at h
    · have hb := afterTerm_bound h
      simp only [List.length_cons]
      omega
    · exact absurd h (by simp)
  · exact absurd h (by simp)

theorem altQuestion_bound {s : List Char} {L : Nat}
    (h : altQuestion s = some L) : 1 ≤ L ∧ L ≤ s.length := by
  unfold altQuestion at h
  split at h
  · have hb := afterTerm_bound h
    simp only [List.length_cons]
    omega
  · exact absurd h (by simp)

theorem altBang_bound {s : List Char} {L : Nat}
    (h : altBang s = some L) : 1 ≤ L ∧ L ≤ s.length := by
  unfold altBang at h
  split at h
  · have hb := afterTerm_bound h
    simp only [List.length_cons]
    omega
  · exact absurd h (by simp)

theorem matchHere_bound {s : List Char} {L : Nat}
    (h : matchHere s = some L) : 1 ≤ L ∧ L ≤ s.length := by
  unfold matchHere at h
  split at h
  · rename_i r h1
    simp only [Option.some.injEq] at h
    exact h ▸ altFullWidth_bound h1
  · split at h
    · rename_i r h2
      simp only [Option.some.injEq] at h
      exact h ▸ altDotSpace_bound h2
    · split at h
      · rename_i r h3
        simp only [Option.some.injEq] at h
        exact h ▸ altQuestion_bound h3
      · exact altBang_bound h

theorem searchEnd_bound :
    ∀ {s : List Char} {ofs e : Nat}, searchEnd s ofs = some e →
      ofs < e ∧ e ≤ ofs + s.length := by
  intro s
  induction s with
  | nil => intro ofs e h; exact absurd h (by simp [searchEnd])
  | cons x xs ih =>
    intro ofs e h
    simp only [searchEnd] at h
    split at h
    · rename_i L hm
      simp only [Option.some.injEq] at h
      have hb := matchHere_bound hm
      simp only [List.length_cons] at hb ⊢
      omega
    · have := ih h
      simp only [List.length_cons]
      omega

/-- The candidate ranges of one top-level split loop tile the remaining
interval exactly, provided the fuel exceeds the number of remaining
characters: each iteration starts where the previous one stopped, consumes
at least one character, and the final candidate stops at the text
length. -/
theorem candLoopPara_tiles (t : List Char) :
    ∀ fuel cur, cur ≤ t.length → t.length - cur < fuel →
      tilesFrom cur ((candLoopPara t fuel cur).map (fun c => (c.start, c.stop)))
        t.length = true := by
  intro fuel
  induction fuel with
  | zero => intro cur h1 h2; omega
  | succ fuel ih =>
    intro cur h1 h2
    simp only [candLoopPara]
    by_cases hc : cur < t.length
    · simp only [hc, if_true]
      cases hs : searchEnd (t.drop cur) 0 with
      | some e =>
        have hb := searchEnd_bound hs
        have hdl : (t.drop cur).length = t.length - cur := by
          simp [List.length_drop]
        simp only [List.map_cons, tilesFrom]
        have hrec := ih (cur + e) (by omega) (by omega)
        simp only [hrec, Bool.and_true, Bool.and_eq_true, beq_iff_eq,
          decide_eq_true_eq]
        exact ⟨trivial, by omega⟩
      | none =>
        simp only [List.map_cons, List.map_nil, tilesFrom]
        simp only [Bool.and_eq_true, beq_iff_eq, decide_eq_true_eq]
        exact ⟨⟨trivial, hc⟩, trivial⟩
    · have hce : cur = t.length := by omega
      simp [hc, tilesFrom, hce]

/-- The spans the top-level split loop returns are exactly the kept
candidates of its candidate view: the two loops share their control flow,
and a candidate is emitted iff it is neither excluded nor empty. -/
theorem splitLoopPara_eq_candFilter (t : List Char) :
    ∀ fuel cur, splitLoopPara t fuel cur =
      (candLoopPara t fuel cur).filterMap
        (fun c => if c.status = CandStatus.kept
          then some ⟨c.start, c.stop, c.text⟩ else none) := by
  intro fuel
  induction fuel with
  | zero => intro cur; simp [splitLoopPara, candLoopPara]
  | succ fuel ih =>
    intro cur
    simp only [splitLoopPara, candLoopPara]
    by_cases hc : cur < t.length
    · simp only [hc, if_true]
      cases hs : searchEnd (t.drop cur) 0 with
      | some e =>
        simp only [List.filterMap_cons, ih (cur + e)]
        by_cases he :
            ((decide ((pyStrip (sliceTake t cur (cur + e))).length < 5) &&
              endsWithDot (pyStrip (sliceTake t cur (cur + e)))) ||
              excludedByPats (pyStrip (sliceTake t cur (cur + e)))) = true
        · simp [he]
        · by_cases hn : (pyStrip (sliceTake t cur (cur + e))).isEmpty = true
          · simp [he, hn]
          · simp [he, hn]
      | none =>
        by_cases hn : (pyStrip (t.drop cur)).isEmpty = true
        · simp [hn]
        · simp [hn]
    · simp [hc]

/-- The corresponding fact for the table-cell loop. -/
theorem splitLoopCell_eq_candFilter (t : List Char) :
    ∀ fuel cur, splitLoopCell t fuel cur =
      (candLoopCell t fuel cur).filterMap
        (fun c => if c.status = CandStatus.kept
          then some ⟨c.start, c.stop, c.text⟩ else none) := by
  intro fuel
  induction fuel with
  | zero => intro cur; simp [splitLoopCell, candLoopCell]
  | succ fuel ih =>
    intro cur
    simp only [splitLoopCell, candLoopCell]
    by_cases hc : cur < t.length
    · simp only [hc, if_true]
      cases hs : searchEnd (t.drop cur) 0 with
      | some e =>
        simp only [List.filterMap_cons, ih (cur + e)]
        by_cases he : excludedByPats (pyStrip (sliceTake t cur (cur + e))) = true
        · simp [he]
        · by_cases hn : (pyStrip (sliceTake t cur (cur + e))).isEmpty = true
          · simp [he, hn]
          · simp [he, hn]
      | none =>
        by_cases hn : (pyStrip (t.drop cur)).isEmpty = true
        · simp [hn]
        · simp [hn]
    · simp [hc]

/-- C3 (amended): for any paragraph text, the ranges of all candidates of
the top-level split — the returned spans together with every dropped
candidate, whether dropped by the exclusion policy or as whitespace-only —
tile the interval from `0` to the text length exactly, in order, with no
gaps or overlaps. -/
theorem C3_partition_all_candidates (t : List Char) :
    tilesFrom 0 (allRanges t) t.length = true := by
  have h := candLoopPara_tiles t (t.length + 1) 0 (by omega) (by omega)
  simpa [allRanges, splitParaCands] using h

/-- C3 (counterexample): for the text `"Hi!  "` the returned spans plus the
ranges dropped by the exclusion policy alone do not tile the text: the
trailing whitespace remainder is dropped for being empty after stripping,
not by the exclusion policy, leaving the interval from 3 to 5
uncovered. -/
theorem C3_counterexample :
    tilesFrom 0 (claimRanges ("Hi!  ".data)) ("Hi!  ".data.length) = false := by
  decide

/-- In the top-level paragraph loop, a boundary-found candidate that is
shorter than 5 characters and ends in a Western period is never kept. -/
theorem candLoopPara_short_drop (t : List Char) :
    ∀ fuel cur c, c ∈ candLoopPara t fuel cur → c.fromBoundary = true →
      (decide (c.text.length < 5) && endsWithDot c.text) = true →
      c.status ≠ CandStatus.kept := by
  intro fuel
  induction fuel with
  | zero => intro cur c hm; simp [candLoopPara] at hm
  | succ fuel ih =>
    intro cur c hm hfb hsd
    simp only [candLoopPara] at hm
    by_cases hc : cur < t.length
    · simp only [hc, if_true] at hm
      cases hs : searchEnd (t.drop cur) 0 with
      | some e =>
        rw [hs] at hm
        simp only [List.mem_cons] at hm
        cases hm with
        | inl hEq =>
          subst hEq
          simp only at hsd ⊢
          simp [hsd]
        | inr hTail => exact ih (cur + e) c hTail hfb hsd
      | none =>
        rw [hs] at hm
        simp only [List.mem_singleton] at hm
        subst hm
        simp at hfb
    · simp [hc] at hm

/-- In the table-cell loop, a boundary-found candidate is kept exactly when
it matches no exclusion pattern and is nonempty after stripping: the
minimum-length/period rule plays no part. -/
theorem candLoopCell_kept_iff (t : List Char) :
    ∀ fuel cur c, c ∈ candLoopCell t fuel cur → c.fromBoundary = true →
      (c.status = CandStatus.kept ↔
        (excludedByPats c.text = false ∧ c.text ≠ [])) := by
  intro fuel
  induction fuel with
  | zero => intro cur c hm; simp [candLoopCell] at hm
  | succ fuel ih =>
    intro cur c hm hfb
    simp only [candLoopCell] at hm
    by_cases hc : cur < t.length
    · simp only [hc, if_true] at hm
      cases hs : searchEnd (t.drop cur) 0 with
      | some e =>
        rw [hs] at hm
        simp only [List.mem_cons] at hm
        cases hm with
        | inl hEq =>
          subst hEq
          simp only
          by_cases he : excludedByPats (pyStrip (sliceTake t cur (cur + e))) = true
          · simp [he]
          · by_cases hn : (pyStrip (sliceTake t cur (cur + e))).isEmpty = true
            · simp [he, hn, List.isEmpty_iff.mp hn]
              decide
            · simp only [Bool.not_eq_true] at he hn
              simp [he, hn, List.isEmpty_iff]
              intro hnil
              rw [hnil] at hn
              simp at hn
        | inr hTail => exact ih (cur + e) c hTail hfb
      | none =>
        rw [hs] at hm
        simp only [List.mem_singleton] at hm
        subst hm
        simp at hfb
    · simp [hc] at hm

/-- C6 (amended): the minimum-length exclusion is not uniform.  A
boundary-found candidate of a top-level paragraph that is shorter than the
minimum length and ends in a Western period is always dropped, but a
boundary-found candidate of a table-cell paragraph is kept exactly when it
matches no exclusion pattern and is nonempty — the minimum-length/period
rule is absent from the table branch. -/
theorem C6_amended (t : List Char) (c : Cand) :
    (c ∈ splitParaCands t → c.fromBoundary = true →
      (decide (c.text.length < 5) && endsWithDot c.text) = true →
      c.status ≠ CandStatus.kept) ∧
    (c ∈ splitCellCands t → c.fromBoundary = true →
      (c.status = CandStatus.kept ↔
        (excludedByPats c.text = false ∧ c.text ≠ []))) := by
  constructor
  · intro hm hfb hsd
    exact candLoopPara_short_drop t (t.length + 1) 0 c hm hfb hsd
  · intro hm hfb
    exact candLoopCell_kept_iff t (t.length + 1) 0 c hm hfb

/-- Witness for `C6_amended` at the table-cell text `", .  Hi"`: its first
boundary-found candidate `", ."` is 3 characters long, ends in a period,
and is nevertheless kept by the cell loop, while the same candidate of the
top-level loop is dropped. -/
theorem C6_amended_witness :
    (Cand.mk 0 4 (", .".data) true CandStatus.droppedExcluded).status ≠
        CandStatus.kept ∧
      ((Cand.mk 0 4 (", .".data) true CandStatus.kept).status = CandStatus.kept ↔
        (excludedByPats (Cand.mk 0 4 (", .".data) true CandStatus.kept).text = false ∧
          (Cand.mk 0 4 (", .".data) true CandStatus.kept).text ≠ [])) :=
  ⟨(C6_amended (", .  Hi".data) (Cand.mk 0 4 (", .".data) true
      CandStatus.droppedExcluded)).1 (by decide) (by decide) (by decide),
   (C6_amended (", .  Hi".data) (Cand.mk 0 4 (", .".data) true
      CandStatus.kept)).2 (by decide) (by decide)⟩

/-- C6 (counterexample): the claim that the minimum-length/period drop
applies uniformly to table-cell candidates is false: segmenting the
cell text `", .  Hi"` keeps the span `", ."`, which is shorter than the
minimum length and ends in a Western period. -/
theorem C6_counterexample :
    (Span.mk 0 4 (", .".data)) ∈ splitCellText (", .  Hi".data) ∧
      (", .".data).length < 5 ∧ endsWithDot (", .".data) = true := by
  decide

/-- C1 (code evaluation): on the paragraph `"你好。今天天气不错！"` the
source segmentation returns a single span covering the whole text, not the
two spans `"你好。"` and `"今天天气不错！"`: the pattern's first
alternative is the literal sequence `。？！`, a lone full-width `。` is not
an alternative at all, the full-width `！` differs from the ASCII `!` the
pattern names, and every alternative additionally requires trailing
whitespace or end of text. -/
theorem C1_code_eval :
    splitParagraphText ("你好。今天天气不错！".data) =
      [Span.mk 0 10 ("你好。今天天气不错！".data)] := by
  decide

/-- C2: segmenting `"价格是3.14元。"` yields exactly one span, the whole
sentence, and segmenting `"Dr. Smith arrived."` yields exactly one span for
the full sentence: neither the embedded decimal nor the abbreviation
produces a boundary or a drop. -/
theorem C2_exclusion_correctness :
    splitParagraphText ("价格是3.14元。".data) =
        [Span.mk 0 9 ("价格是3.14元。".data)] ∧
      splitParagraphText ("Dr. Smith arrived.".data) =
        [Span.mk 0 18 ("Dr. Smith arrived.".data)] := by
  decide

/-- A left fold that only ever appends to its accumulator equals the
accumulator followed by the concatenation of the appended pieces. -/
theorem foldl_extrude {α β : Type} (g : List β → α → List β) (f : α → List β)
    (hg : ∀ a x, g a x = a ++ f x) :
    ∀ (l : List α) (init : List β),
      List.foldl g init l = init ++ (l.map f).flatten := by
  intro l
  induction l with
  | nil => intro init; simp
  | cons x xs ih =>
    intro init
    simp only [List.foldl_cons, List.map_cons, List.flatten_cons, hg]
    rw [ih, List.append_assoc]

/-- C4: the catalog order.  `split_into_sentences` lists the records of all
top-level paragraphs in document order first, followed by the records of
the tables in document order, each table traversed row-major and each
cell's paragraphs in order; global sentence indices are positions in this
list, so for a document with paragraphs P0, P1 and one table T0 with a
single cell holding P2, the indices cover P0's sentences, then P1's, then
T0/row0/cell0/P2's. -/
theorem C4_catalog_order (doc : Document) :
    splitIntoSentences doc =
      (doc.paragraphs.enum.map fun ip => paraPositions ip.1 ip.2.text).flatten ++
        (doc.tables.enum.map fun it =>
          (it.2.rows.enum.map fun ir =>
            (ir.2.cells.enum.map fun ic =>
              (ic.2.paragraphs.enum.map fun ip =>
                cellParaPositions it.1 ir.1 ic.1 ip.1 ip.2.text).flatten).flatten).flatten).flatten := by
  have h1 : ∀ (ti ri ci : Nat) (ps : List Paragraph) (init : List Position),
      List.foldl (fun acc ip => acc ++ cellParaPositions ti ri ci ip.1 ip.2.text)
          init ps.enum =
        init ++ (ps.enum.map fun ip =>
          cellParaPositions ti ri ci ip.1 ip.2.text).flatten :=
    fun ti ri ci ps init => foldl_extrude _ _ (fun _ _ => rfl) ps.enum init
  have h2 : ∀ (ti ri : Nat) (cs : List Cell) (init : List Position),
      List.foldl (fun acc ic =>
          List.foldl (fun acc ip =>
            acc ++ cellParaPositions ti ri ic.1 ip.1 ip.2.text) acc
            ic.2.paragraphs.enum) init cs.enum =
        init ++ (cs.enum.map fun ic =>
          (ic.2.paragraphs.enum.map fun ip =>
            cellParaPositions ti ri ic.1 ip.1 ip.2.text).flatten).flatten :=
    fun ti ri cs init =>
      foldl_extrude _ _ (fun a x => h1 ti ri x.1 x.2.paragraphs a) cs.enum init
  have h3 : ∀ (ti : Nat) (rs : List Row) (init : List Position),
      List.foldl (fun acc ir =>
          List.foldl (fun acc ic =>
            List.foldl (fun acc ip =>
              acc ++ cellParaPositions ti ir.1 ic.1 ip.1 ip.2.text) acc
              ic.2.paragraphs.enum) acc ir.2.cells.enum) init rs.enum =
        init ++ (rs.enum.map fun ir =>
          (ir.2.cells.enum.map fun ic =>
            (ic.2.paragraphs.enum.map fun ip =>
              cellParaPositions ti ir.1 ic.1 ip.1 ip.2.text).flatten).flatten).flatten :=
    fun ti rs init =>
      foldl_extrude _ _ (fun a x => h2 ti x.1 x.2.cells a) rs.enum init
  have h4 : ∀ (ts : List Table) (init : List Position),
      List.foldl (fun acc it =>
          List.foldl (fun acc ir =>
            List.foldl (fun acc ic =>
              List.foldl (fun acc ip =>
                acc ++ cellParaPositions it.1 ir.1 ic.1 ip.1 ip.2.text) acc
                ic.2.paragraphs.enum) acc ir.2.cells.enum) acc it.2.rows.enum)
          init ts.enum =
        init ++ (ts.enum.map fun it =>
          (it.2.rows.enum.map fun ir =>
            (ir.2.cells.enum.map fun ic =>
              (ic.2.paragraphs.enum.map fun ip =>
                cellParaPositions it.1 ir.1 ic.1 ip.1 ip.2.text).flatten).flatten).flatten).flatten :=
    fun ts init =>
      foldl_extrude _ _ (fun a x => h3 x.1 x.2.rows a) ts.enum init
  have hp := foldl_extrude
    (fun acc ip => acc ++ paraPositions ip.1 ip.2.text)
    (fun ip => paraPositions ip.1 ip.2.text)
    (fun _ _ => rfl) doc.paragraphs.enum []
  unfold splitIntoSentences
  rw [hp, h4, List.nil_append]

theorem leadsWith_append (pat b : List Char) : leadsWith (pat ++ b) pat = true := by
  induction pat with
  | nil => simp [leadsWith]
  | cons c cs ih => simp [leadsWith, ih]

theorem hasSeq_here (s pat : List Char) (h : leadsWith s pat = true) :
    hasSeq s pat = true := by
  cases s with
  | nil => simpa [hasSeq] using h
  | cons c cs => simp [hasSeq, h]

theorem hasSeq_cons (c : Char) (s pat : List Char) (h : hasSeq s pat = true) :
    hasSeq (c :: s) pat = true := by
  simp [hasSeq, h]

theorem hasSeq_append_left (a s pat : List Char) (h : hasSeq s pat = true) :
    hasSeq (a ++ s) pat = true := by
  induction a with
  | nil => simpa
  | cons c cs ih => simp [hasSeq, ih]

/-- C5: two `add_comment` calls whose records carry the same paragraph
locator leave a paragraph whose text contains both comment texts, not just
the second one: the second call re-reads the full paragraph text — which by
then already contains the first appended comment run — before rewriting the
runs. -/
theorem C5_annotations_merge
    (st : ProcState) (doc : Document) (idx1 idx2 : Int) (c1 c2 : List Char)
    (pIdx s1 e1 s2 e2 : Nat) (t1 t2 : List Char) (p : Paragraph)
    (hdoc : st.document = some doc)
    (hl1 : idx1 < (st.sentence_positions.length : Int))
    (hl2 : idx2 < (st.sentence_positions.length : Int))
    (hp1 : pyGet st.sentence_positions idx1 = some (Position.para pIdx s1 e1 t1))
    (hp2 : pyGet st.sentence_positions idx2 = some (Position.para pIdx s2 e2 t2))
    (hpp : doc.paragraphs.get? pIdx = some p) :
    ∃ d3 p2,
      (add_comment (add_comment st idx1 c1).2 idx2 c2).2.document = some d3 ∧
        d3.paragraphs.get? pIdx = some p2 ∧
        hasSeq p2.text c1 = true ∧ hasSeq p2.text c2 = true := by
  have hlen : pIdx < doc.paragraphs.length := by
    rcases List.get?_eq_some.mp hpp with ⟨h, _⟩
    exact h
  have hni1 : ¬((st.sentence_positions.length : Int) ≤ idx1) := by omega
  have hni2 : ¬((st.sentence_positions.length : Int) ≤ idx2) := by omega
  have hstep1 : (add_comment st idx1 c1).2 =
      { st with document := some { doc with
          paragraphs := doc.paragraphs.set pIdx (addCommentToParagraph p s1 e1 c1) } } := by
    simp only [add_comment, hdoc, hni1, if_false, hp1, hpp]
    cases pyGet st.sentences idx1 <;> rfl
  set A1 := addCommentToParagraph p s1 e1 c1 with hA1
  have hget2 : (doc.paragraphs.set pIdx A1).get? pIdx = some A1 := by
    rw [List.get?_eq_getElem?]
    exact List.getElem?_set_eq_of_lt A1 hlen
  have hstep2 : (add_comment (add_comment st idx1 c1).2 idx2 c2).2 =
      { st with document := some { doc with
          paragraphs := (doc.paragraphs.set pIdx A1).set pIdx
            (addCommentToParagraph A1 s2 e2 c2) } } := by
    rw [hstep1]
    simp only [add_comment, hni2, if_false, hp2, hget2]
    cases pyGet st.sentences idx2 <;> rfl
  refine ⟨_, addCommentToParagraph A1 s2 e2 c2, by rw [hstep2], ?_, ?_, ?_⟩
  · rw [List.get?_eq_getElem?]
    exact List.getElem?_set_eq_of_lt _ (by simpa using hlen)
  · rw [hA1]
    simp only [addCommentToParagraph, Paragraph.text, commentRun, plainRun,
      List.map_cons, List.map_nil, List.flatten_cons, List.flatten_nil,
      List.append_nil, List.append_assoc]
    repeat
      first
      | exact hasSeq_here _ _ (leadsWith_append _ _)
      | apply hasSeq_cons
      | apply hasSeq_append_left
  · rw [hA1]
    simp only [addCommentToParagraph, Paragraph.text, commentRun, plainRun,
      List.map_cons, List.map_nil, List.flatten_cons, List.flatten_nil,
      List.append_nil, List.append_assoc]
    repeat
      first
      | exact hasSeq_here _ _ (leadsWith_append _ _)
      | apply hasSeq_cons
      | apply hasSeq_append_left

/-- Witness for `C5_annotations_merge`: a one-paragraph document whose two
catalogued sentences share paragraph locator 0, annotated with `"a"` and
then `"b"`; the final paragraph text contains both. -/
theorem C5_annotations_merge_witness :
    ∃ d3 p2,
      (add_comment (add_comment
          (ProcState.mk (some (Document.mk [Paragraph.ofText ("Hi! Yo?".data)] []))
            [("Hi!".data), ("Yo?".data)]
            [Position.para 0 0 3 ("Hi!".data), Position.para 0 3 7 ("Yo?".data)])
          0 ("a".data)).2 1 ("b".data)).2.document = some d3 ∧
        d3.paragraphs.get? 0 = some p2 ∧
        hasSeq p2.text ("a".data) = true ∧ hasSeq p2.text ("b".data) = true :=
  C5_annotations_merge
    (ProcState.mk (some (Document.mk [Paragraph.ofText ("Hi! Yo?".data)] []))
      [("Hi!".data), ("Yo?".data)]
      [Position.para 0 0 3 ("Hi!".data), Position.para 0 3 7 ("Yo?".data)])
    (Document.mk [Paragraph.ofText ("Hi! Yo?".data)] [])
    0 1 ("a".data) ("b".data) 0 0 3 3 7
    ("Hi!".data) ("Yo?".data) (Paragraph.ofText ("Hi! Yo?".data))
    (by decide) (by decide) (by decide)
    (by decide) (by decide) (by decide)

theorem toDigit_isDigit (n : Nat) : (toDigit n).isDigit = true := by
  unfold toDigit
  have h : n % 10 < 10 := Nat.mod_lt _ (by omega)
  have h10 : n % 10 = 0 ∨ n % 10 = 1 ∨ n % 10 = 2 ∨ n % 10 = 3 ∨ n % 10 = 4 ∨
      n % 10 = 5 ∨ n % 10 = 6 ∨ n % 10 = 7 ∨ n % 10 = 8 ∨ n % 10 = 9 := by omega
  rcases h10 with h' | h' | h' | h' | h' | h' | h' | h' | h' | h' <;>
    rw [h'] <;> decide

theorem strftimeCompact_digits (dt : DateTime) :
    (strftimeCompact dt).length = 14 ∧
      (strftimeCompact dt).all Char.isDigit = true := by
  constructor
  · rfl
  · simp [strftimeCompact, pad4, pad2, toDigit_isDigit]

/-- C7 (counterexample): the default output path the source derives uses
the suffix `_AI校对`, not the suffix `_proofed` the claim names: for
`doc.docx` the source derives `doc_AI校对.docx` while the claim's rule
gives `doc_proofed.docx`. -/
theorem C7_counterexample :
    save_document_path (fun _ => false) (DateTime.mk 2026 10 12 1 2 3)
        ("doc.docx".data) = ("doc_AI校对.docx".data) ∧
      spec_defaultOutputPath ("doc.docx".data) = ("doc_proofed.docx".data) ∧
      save_document_path (fun _ => false) (DateTime.mk 2026 10 12 1 2 3)
        ("doc.docx".data) ≠ spec_defaultOutputPath ("doc.docx".data) := by
  decide

/-- C7 (amended): with no explicit output path, the derived path is the
original file name with `_AI校对` inserted before the extension; when a
file exists at that path, the derived path carries the additional
timestamp suffix `_YYYYMMDDHHMMSS` — fourteen decimal digits — before the
extension. -/
theorem C7_amended (fsExists : List Char → Bool) (now : DateTime)
    (fp : List Char) :
    (fsExists (joinPath (dirnameOf fp) ((splitExtName (baseOf fp)).1 ++
        "_AI校对".data ++ (splitExtName (baseOf fp)).2)) = false →
      save_document_path fsExists now fp =
        joinPath (dirnameOf fp) ((splitExtName (baseOf fp)).1 ++
          "_AI校对".data ++ (splitExtName (baseOf fp)).2)) ∧
    (fsExists (joinPath (dirnameOf fp) ((splitExtName (baseOf fp)).1 ++
        "_AI校对".data ++ (splitExtName (baseOf fp)).2)) = true →
      save_document_path fsExists now fp =
        joinPath (dirnameOf fp) ((splitExtName (baseOf fp)).1 ++
          "_AI校对_".data ++ strftimeCompact now ++ (splitExtName (baseOf fp)).2) ∧
      (strftimeCompact now).length = 14 ∧
      (strftimeCompact now).all Char.isDigit = true) := by
  constructor
  · intro h
    simp only [save_document_path, h]
    rfl
  · intro h
    refine ⟨?_, strftimeCompact_digits now⟩
    simp only [save_document_path, h]
    rfl

/-- Witness for `C7_amended` at `doc.docx`, once with no collision and once
with a collision. -/
theorem C7_amended_witness :
    save_document_path (fun _ => false) (DateTime.mk 2026 10 12 1 2 3)
        ("doc.docx".data) =
      joinPath (dirnameOf ("doc.docx".data))
        ((splitExtName (baseOf ("doc.docx".data))).1 ++ "_AI校对".data ++
          (splitExtName (baseOf ("doc.docx".data))).2) ∧
    (save_document_path (fun _ => true) (DateTime.mk 2026 10 12 1 2 3)
        ("doc.docx".data) =
      joinPath (dirnameOf ("doc.docx".data))
        ((splitExtName (baseOf ("doc.docx".data))).1 ++ "_AI校对_".data ++
          strftimeCompact (DateTime.mk 2026 10 12 1 2 3) ++
          (splitExtName (baseOf ("doc.docx".data))).2) ∧
      (strftimeCompact (DateTime.mk 2026 10 12 1 2 3)).length = 14 ∧
      (strftimeCompact (DateTime.mk 2026 10 12 1 2 3)).all Char.isDigit = true) :=
  ⟨(C7_amended (fun _ => false) (DateTime.mk 2026 10 12 1 2 3)
      ("doc.docx".data)).1 (by decide),
   (C7_amended (fun _ => true) (DateTime.mk 2026 10 12 1 2 3)
      ("doc.docx".data)).2 (by decide)⟩

/-- C8: a parsed classifier response missing any of the four required
fields makes `proofread_sentence` return the failure side, never a
success. -/
theorem C8_missing_field_fails (s : List Char) (obj : List (String × JVal))
    (k : String) (hk : k ∈ requiredKeys) (hmiss : hasKey obj k = false) :
    proofread_sentence s (ApiOutcome.parsed obj) = ProofreadReply.err := by
  have hv : validateResult obj = false := by
    unfold validateResult
    cases hall : requiredKeys.all (hasKey obj)
    · rfl
    · have hkk := List.all_eq_true.mp hall k hk
      rw [hmiss] at hkk
      exact absurd hkk (by decide)
  unfold proofread_sentence
  split
  · rfl
  · simp [hv]

/-- Witness for `C8_missing_field_fails`: a response object that lacks the
`wrong` field is rejected. -/
theorem C8_missing_field_fails_witness :
    proofread_sentence ("你好".data)
        (ApiOutcome.parsed
          [("content_0", JVal.str ("你好".data)),
           ("annotation", JVal.str []),
           ("content_1", JVal.str [])]) = ProofreadReply.err :=
  C8_missing_field_fails ("你好".data)
    [("content_0", JVal.str ("你好".data)),
     ("annotation", JVal.str []),
     ("content_1", JVal.str [])]
    "wrong" (by decide) (by decide)

/-- The sentence loop of the worker only ever appends to its log: the log
after the loop is the initial log followed by one entry per sentence, a
sentence line on classifier success and an error line on classifier
failure, independent of the document state threading. -/
theorem foldl_step_log (api : Nat → ClassifyOutcome) :
    ∀ (l : List (Nat × List Char)) (st : ProcState) (log : List LogEntry),
      (List.foldl (stepSentence api) (st, log) l).2 =
        log ++ l.map (fun is =>
          match api is.1 with
          | ClassifyOutcome.success w _ _ => LogEntry.sentenceLog is.2 w
          | ClassifyOutcome.failure m => LogEntry.errorLog is.2 m) := by
  intro l
  induction l with
  | nil => intro st log; simp
  | cons x xs ih =>
    intro st log
    simp only [List.foldl_cons, List.map_cons]
    cases hx : api x.1 with
    | success w note corr =>
      cases w
      · simp [stepSentence, hx, ih]
      · simp [stepSentence, hx, ih]
    | failure m =>
      simp [stepSentence, hx, ih]

/-- C9: failure policy of the worker run.  A failed load aborts the run
before any sentence is classified (the log is empty); with a loaded
document and a nonempty catalog, every sentence is processed in catalog
order — a classifier failure on one sentence is recorded as an error line
and processing continues through all remaining sentences — and the run
ends with the save outcome: a failed save yields a failed run. -/
theorem C9_failure_policy (doc : Document) (api : Nat → ClassifyOutcome)
    (saveOk : Bool) (saveMsg : List Char) :
    threadRun none api saveOk saveMsg =
        (RunOutcome.finished false ("加载文档失败".data), []) ∧
      ((buildState doc).sentences.isEmpty = false →
        threadRun (some doc) api saveOk saveMsg =
          (RunOutcome.finished saveOk saveMsg,
            (buildState doc).sentences.enum.map (fun is =>
              match api is.1 with
              | ClassifyOutcome.success w _ _ => LogEntry.sentenceLog is.2 w
              | ClassifyOutcome.failure m => LogEntry.errorLog is.2 m))) := by
  constructor
  · rfl
  · intro hne
    unfold threadRun
    simp only [hne, Bool.false_eq_true, if_false]
    rw [Prod.ext_iff]
    constructor
    · rfl
    · simpa using foldl_step_log api (buildState doc).sentences.enum
        (buildState doc) []

/-- Witness for `C9_failure_policy`: a document with two catalogued
sentences where the classifier fails on the first and succeeds on the
second; both log entries are present, so the failure did not stop the
loop, and a failed save makes the run fail. -/
theorem C9_failure_policy_witness :
    threadRun none
        (fun i => if i = 0 then ClassifyOutcome.failure ("x".data)
          else ClassifyOutcome.success true ("n".data) ("c".data))
        false ("save failed".data) =
        (RunOutcome.finished false ("加载文档失败".data), []) ∧
      threadRun (some (Document.mk [Paragraph.ofText ("Hi! Yo?".data)] []))
        (fun i => if i = 0 then ClassifyOutcome.failure ("x".data)
          else ClassifyOutcome.success true ("n".data) ("c".data))
        false ("save failed".data) =
        (RunOutcome.finished false ("save failed".data),
          (buildState (Document.mk [Paragraph.ofText ("Hi! Yo?".data)] [])).sentences.enum.map
            (fun is =>
              match (if is.1 = 0 then ClassifyOutcome.failure ("x".data)
                else ClassifyOutcome.success true ("n".data) ("c".data)) with
              | ClassifyOutcome.success w _ _ => LogEntry.sentenceLog is.2 w
              | ClassifyOutcome.failure m => LogEntry.errorLog is.2 m)) :=
  ⟨(C9_failure_policy (Document.mk [Paragraph.ofText ("Hi! Yo?".data)] [])
      (fun i => if i = 0 then ClassifyOutcome.failure ("x".data)
        else ClassifyOutcome.success true ("n".data) ("c".data))
      false ("save failed".data)).1,
   (C9_failure_policy (Document.mk [Paragraph.ofText ("Hi! Yo?".data)] [])
      (fun i => if i = 0 then ClassifyOutcome.failure ("x".data)
        else ClassifyOutcome.success true ("n".data) ("c".data))
      false ("save failed".data)).2 (by decide)⟩

/-- C10 (counterexample): a negative sentence index whose magnitude
exceeds the catalog length does not resolve from the end and does not
mutate: with one catalogued record, index `-2` returns failure and leaves
the state unchanged. -/
theorem C10_counterexample :
    add_comment
        (ProcState.mk (some (Document.mk [Paragraph.ofText ("Hi!".data)] []))
          [("Hi!".data)] [Position.para 0 0 3 ("Hi!".data)])
        (-2) ("c".data) =
      (false,
        ProcState.mk (some (Document.mk [Paragraph.ofText ("Hi!".data)] []))
          [("Hi!".data)] [Position.para 0 0 3 ("Hi!".data)]) := by
  decide

/-- C10 (amended): `add_comment` returns failure without mutating whenever
the index is at least the catalog length; a negative index of magnitude at
most the catalog length is not rejected — it resolves to the record counted
from the end of the catalog and the owning paragraph is rewritten — while a
negative index of larger magnitude raises `IndexError`, which is caught and
returned as failure without mutation. -/
theorem C10_index_handling (st : ProcState) (doc : Document) (idx : Int)
    (c : List Char) (pIdx s e : Nat) (t : List Char) (p : Paragraph)
    (w : List Char) :
    ((st.sentence_positions.length : Int) ≤ idx →
      add_comment st idx c = (false, st)) ∧
    (st.document = some doc → idx < 0 →
      -(st.sentence_positions.length : Int) ≤ idx →
      pyGet st.sentence_positions idx = some (Position.para pIdx s e t) →
      doc.paragraphs.get? pIdx = some p →
      pyGet st.sentences idx = some w →
      (pyGet st.sentence_positions idx =
          st.sentence_positions.get?
            (((st.sentence_positions.length : Int) + idx).toNat) ∧
        add_comment st idx c =
          (true, { st with document := some { doc with
            paragraphs := doc.paragraphs.set pIdx
              (addCommentToParagraph p s e c) } }))) := by
  constructor
  · intro h
    cases hd : st.document with
    | none => simp [add_comment, hd]
    | some d => simp [add_comment, hd, h]
  · intro hdoc hneg hge hp hpp hw
    constructor
    · unfold pyGet
      rw [if_neg (by omega), if_pos (by omega)]
    · have hni : ¬((st.sentence_positions.length : Int) ≤ idx) := by omega
      simp only [add_comment, hdoc, hni, if_false, hp, hpp, hw]

/-- Witness for `C10_index_handling`: on a one-record catalog, index `5` is
rejected with no mutation, and index `-1` resolves to the single record and
rewrites paragraph 0. -/
theorem C10_index_handling_witness :
    add_comment
        (ProcState.mk (some (Document.mk [Paragraph.ofText ("Hi!".data)] []))
          [("Hi!".data)] [Position.para 0 0 3 ("Hi!".data)])
        5 ("c".data) =
      (false,
        ProcState.mk (some (Document.mk [Paragraph.ofText ("Hi!".data)] []))
          [("Hi!".data)] [Position.para 0 0 3 ("Hi!".data)]) ∧
    (pyGet [Position.para 0 0 3 ("Hi!".data)] (-1) =
        [Position.para 0 0 3 ("Hi!".data)].get?
          ((([Position.para 0 0 3 ("Hi!".data)].length : Int) + (-1)).toNat) ∧
      add_comment
          (ProcState.mk (some (Document.mk [Paragraph.ofText ("Hi!".data)] []))
            [("Hi!".data)] [Position.para 0 0 3 ("Hi!".data)])
          (-1) ("c".data) =
        (true,
          { ProcState.mk (some (Document.mk [Paragraph.ofText ("Hi!".data)] []))
              [("Hi!".data)] [Position.para 0 0 3 ("Hi!".data)] with
            document := some { Document.mk [Paragraph.ofText ("Hi!".data)] [] with
              paragraphs := [Paragraph.ofText ("Hi!".data)].set 0
                (addCommentToParagraph (Paragraph.ofText ("Hi!".data)) 0 3
                  ("c".data)) } })) :=
  ⟨(C10_index_handling
      (ProcState.mk (some (Document.mk [Paragraph.ofText ("Hi!".data)] []))
        [("Hi!".data)] [Position.para 0 0 3 ("Hi!".data)])
      (Document.mk [Paragraph.ofText ("Hi!".data)] []) 5 ("c".data)
      0 0 3 ("Hi!".data) (Paragraph.ofText ("Hi!".data)) ("Hi!".data)).1
      (by decide),
   (C10_index_handling
      (ProcState.mk (some (Document.mk [Paragraph.ofText ("Hi!".data)] []))
        [("Hi!".data)] [Position.para 0 0 3 ("Hi!".data)])
      (Document.mk [Paragraph.ofText ("Hi!".data)] []) (-1) ("c".data)
      0 0 3 ("Hi!".data) (Paragraph.ofText ("Hi!".data)) ("Hi!".data)).2
      (by decide) (by decide) (by decide) (by decide) (by decide) (by decide)⟩

end DocProof
